import Mathlib

/-!
# Verification of the CogSimpleStorage connection/framing client

Shallow embedding of `src/opencog/persist/cog-simple/CogSimpleStorage.cc`:
URI parsing (`init` / the host-port extraction in `open`), the connection
state (`_sockfd`, `connected`, `close`), the send path (`do_send`) and the
boundary-aware receive loop (`do_recv`), together with a model of the
`open()` handshake sequence.

Bytes are modelled as `Nat` (values 0..255); the socket descriptor as `Int`
(the C `int _sockfd`).  The sequence of values returned by successive
`recv(2)` calls on the socket is modelled as a script (`List ReadEvent`):
a negative return is `rerr`, a zero return is `rclosed`, and a positive
return is `rdata chunk` with `chunk` the bytes placed in the buffer.
-/

/-- Bytes of a string literal, as natural numbers (the C `char` data,
all claims use 7-bit ASCII). -/
def strBytes (s : String) : List Nat := s.data.map Char.toNat

/-- C-string truncation: the code writes `buf[len] = 0` and then converts
`buf` (a `char*`) to `std::string`, which stops at the first NUL byte.
`cstr chunk` is the byte list actually converted. -/
def cstr (chunk : List Nat) : List Nat := chunk.takeWhile (fun b => b ≠ 0)

/-- One result of a `recv(2)` call on the socket. -/
inductive ReadEvent where
  /-- `recv` returned a negative value (system error). -/
  | rerr : ReadEvent
  /-- `recv` returned 0: the peer closed the connection. -/
  | rclosed : ReadEvent
  /-- `recv` returned `chunk.length` bytes (valid scripts have
  `1 ≤ chunk.length ≤ 4096`). -/
  | rdata (chunk : List Nat) : ReadEvent
deriving DecidableEq, Repr

/-- Outcome of `do_recv`: either a returned message, or one of the thrown
`IOException`s, distinguished by their cause.  Each outcome carries the
value of `_sockfd` after the call and the unconsumed part of the read
script. -/
inductive RecvOutcome where
  /-- normal return of a message. -/
  | ok (msg : List Nat) (fd : Int) (rest : List ReadEvent) : RecvOutcome
  /-- `"Not connected to cogserver!"` thrown on entry. -/
  | notConnected (fd : Int) : RecvOutcome
  /-- `"Unable to talk to cogserver"` thrown on a negative `recv`. -/
  | transportError (fd : Int) (rest : List ReadEvent) : RecvOutcome
  /-- `"Cogserver unexpectedly closed connection"` thrown on a zero-byte
  `recv`, after setting `_sockfd = 0`. -/
  | peerClosed (fd : Int) (rest : List ReadEvent) : RecvOutcome
  /-- the script is exhausted: the next `recv` would block. -/
  | blocked (fd : Int) : RecvOutcome
deriving DecidableEq, Repr

/-- The `while(true)` read loop of `CogSimpleStorage::do_recv`
(CogSimpleStorage.cc lines 211-250).  `garbage` is the parameter of
`do_recv`, `fd` the current `_sockfd`, `first` the `first_time` local,
`rb` the accumulated `rb` string. -/
def recvLoop (garbage : Bool) (fd : Int) :
    Bool → List Nat → List ReadEvent → RecvOutcome
  | _, _, [] => .blocked fd
  | _, _, .rerr :: rest => .transportError fd rest
  | _, _, .rclosed :: rest => .peerClosed 0 rest
  | first, rb, .rdata chunk :: rest =>
    -- `int len = recv(_sockfd, buf, 4096, 0);` yielded `chunk.length` bytes
    if chunk.length = 1 ∧ chunk.headD 0 = 0x16 then
      -- "Ignore solitary synchronous idle chars." — `continue`,
      -- `first_time` and `rb` are untouched
      recvLoop garbage fd first rb rest
    else if first ∧ chunk.length < 4096 ∧
        (chunk.getLastD 0 = 10 ∨ garbage) then
      -- short first read, newline-terminated or greeting: `return buf;`
      .ok (cstr chunk) fd rest
    else
      -- `first_time = false; rb += buf;`
      if chunk.getLastD 0 = 10 then .ok (rb ++ cstr chunk) fd rest
      else recvLoop garbage fd false (rb ++ cstr chunk) rest

/-- `CogSimpleStorage::connected` (lines 170-173): `return 0 < _sockfd;` -/
def connected (fd : Int) : Bool := 0 < fd

/-- `CogSimpleStorage::do_recv` (lines 198-252): the `connected()` guard
followed by the read loop with `first_time = true` and `rb` empty. -/
def do_recv (garbage : Bool) (fd : Int) (script : List ReadEvent) :
    RecvOutcome :=
  if connected fd then recvLoop garbage fd true [] script
  else .notConnected fd

/-- Outcome of `do_send`, carrying the value of `_sockfd` after the
call. -/
inductive SendOutcome where
  /-- normal return, carrying the bytes handed to `send(2)`. -/
  | ok (sent : List Nat) (fd : Int) : SendOutcome
  /-- `"Not connected to cogserver!"` thrown on entry. -/
  | notConnected (fd : Int) : SendOutcome
  /-- `"Unable to talk to cogserver"` thrown on a negative `send`. -/
  | transportError (fd : Int) : SendOutcome
deriving DecidableEq, Repr

/-- `CogSimpleStorage::do_send` (lines 184-193).  `rc` is the value the
`send(2)` system call returns for this write; the code only tests
`0 > rc` and never touches `_sockfd`. -/
def do_send (str : List Nat) (fd : Int) (rc : Int) : SendOutcome :=
  if connected fd then
    if rc < 0 then .transportError fd else .ok str fd
  else .notConnected fd

/-- `CogSimpleStorage::close` (lines 175-180): release the descriptor when
connected, then unconditionally `_sockfd = -1`.  The first component is the
descriptor passed to `unistd_close` (`none` when no release happens), the
second the new `_sockfd`. -/
def closeFd (fd : Int) : Option Int × Int :=
  (if connected fd then some fd else none, -1)

/-! ## URI parsing -/

/-- `CogSimpleStorage::init` (lines 50-56):
`strncmp(uri, "cog://", 6)` must succeed, otherwise the constructor throws
`"Unknown URI"`. -/
def initOk (uri : List Char) : Bool := uri.take 6 = "cog://".data

/-- Host extraction in `CogSimpleStorage::open` (lines 82-85): all
characters after the 6-character scheme prefix up to the first `:` or `/`
(`find_first_of(":/")`; when absent the whole remainder is the host). -/
def parseHost (uri : List Char) : List Char :=
  (uri.drop 6).takeWhile (fun c => c ≠ ':' ∧ c ≠ '/')

/-- Port extraction in `CogSimpleStorage::open` (lines 87-96): default
`"17001"`; otherwise `find(':', 6 + host.length())` locates the first `:`
at index ≥ 6 + |host|, the port is `substr(colon+1)` truncated at the
next `/`.  The characters after the first `:` in the suffix starting at
index 6 + |host| are exactly `(tail.dropWhile (· ≠ ':')).drop 1`. -/
def parsePort (uri : List Char) : List Char :=
  let host := parseHost uri
  let tail := uri.drop (6 + host.length)
  if tail.any (fun c => c = ':') then
    ((tail.dropWhile (fun c => c ≠ ':')).drop 1).takeWhile (fun c => c ≠ '/')
  else "17001".data

/-- Modelled from the spec: the code under `src/` never extracts the
namespace component (the whole identifier is stored and passed through);
per the spec, "everything after the final resolved `/`-or-end boundary is
the namespace".  For identifiers `cog://host[:port]/n` (host free of `:`
and `/`, port decimal) that boundary is the first `/` after the scheme. -/
def parseNamespace (uri : List Char) : List Char :=
  ((uri.drop 6).dropWhile (fun c => c ≠ '/')).drop 1

/-! ## The `open()` handshake -/

/-- Observable I/O actions performed by `open()` after the TCP connect. -/
inductive IOAction where
  /-- a `send(2)` of these bytes. -/
  | sendBytes (bs : List Nat) : IOAction
  /-- a call of `do_recv` with this `garbage` flag. -/
  | recvCall (garbage : Bool) : IOAction
deriving DecidableEq, Repr

/-- How a call of `open()` ends. -/
inductive OpenResult where
  /-- normal return. -/
  | ok : OpenResult
  /-- `getaddrinfo` / `socket` / `connect` failure (`"Unknown host"` /
  `"Unable to create socket"` / `"Unable to connect"`). -/
  | connectionError : OpenResult
  /-- the handshake `send` returned a negative value. -/
  | transportError : OpenResult
  /-- the handshake `do_recv` threw `notConnected`. -/
  | notConnected : OpenResult
  /-- the handshake `do_recv` threw on a negative `recv`. -/
  | recvError : OpenResult
  /-- the handshake `do_recv` threw on a zero-byte `recv`. -/
  | peerClosed : OpenResult
  /-- the handshake `do_recv` exhausted the script. -/
  | blocked : OpenResult
deriving DecidableEq, Repr

/-- Environment a call of `open()` runs in: the results the operating
system gives to each system call, and the socket's read script. -/
structure OpenEnv where
  /-- `getaddrinfo` succeeds. -/
  resolveOk : Bool
  /-- the value `socket(2)` returns (negative on failure, a fresh
  descriptor otherwise). -/
  newFd : Int
  /-- `connect(2)` succeeds. -/
  connectOk : Bool
  /-- the value `send(2)` returns for the handshake command. -/
  sendRc : Int
  /-- the socket's read script for the handshake `do_recv`. -/
  script : List ReadEvent
deriving Repr

/-- The handshake command sent by `open()` (line 143): `"sexpr\n"`. -/
def sexprCmd : List Nat := strBytes "sexpr\x0a"

/-- Modelled from the spec: the bare call `do_recv();` at line 159 of
`open()` takes the default value of the `garbage` parameter from the class
declaration in `CogSimpleStorage.h`, which is not among the sources here.
The spec states that `open()` performs "one receive with the 'first read
is unterminated greeting' flag set", and the comments at lines 195-197 and
203-208 agree, so the flag is `true`. -/
def openRecvGarbage : Bool := true

/-- `CogSimpleStorage::open` (lines 70-168): immediate return when already
connected, otherwise resolve, create the socket, connect, and perform the
handshake (send `"sexpr\n"`, then one `do_recv` whose result is
discarded).  Returns the new `_sockfd`, the I/O actions performed after
the connect, and how the call ended.  Note the code assigns `_sockfd`
before checking the `socket()` result and keeps it on `connect` failure,
exactly as lines 110-127 do. -/
def openModel (fd : Int) (env : OpenEnv) : Int × List IOAction × OpenResult :=
  if connected fd then (fd, [], .ok)
  else if env.resolveOk = false then (fd, [], .connectionError)
  else if env.newFd < 0 then (env.newFd, [], .connectionError)
  else if env.connectOk = false then (env.newFd, [], .connectionError)
  else if env.sendRc < 0 then
    (env.newFd, [.sendBytes sexprCmd], .transportError)
  else
    let acts := [IOAction.sendBytes sexprCmd, IOAction.recvCall openRecvGarbage]
    match do_recv openRecvGarbage env.newFd env.script with
    | .ok _ fd' _ => (fd', acts, .ok)
    | .notConnected fd' => (fd', acts, .notConnected)
    | .transportError fd' _ => (fd', acts, .recvError)
    | .peerClosed fd' _ => (fd', acts, .peerClosed)
    | .blocked fd' => (fd', acts, .blocked)

/-- Post-call `_sockfd` of a receive outcome. -/
def fdOf : RecvOutcome → Int
  | .ok _ fd _ => fd
  | .notConnected fd => fd
  | .transportError fd _ => fd
  | .peerClosed fd _ => fd
  | .blocked fd => fd

/-- Whether a receive outcome is the peer-closed exception. -/
def isPeerClosed : RecvOutcome → Bool
  | .peerClosed _ _ => true
  | _ => false

/-! ## Helper lemmas -/

theorem takeWhile_append_all {α : Type} (p : α → Bool) (l₁ l₂ : List α)
    (h : ∀ a ∈ l₁, p a = true) :
    (l₁ ++ l₂).takeWhile p = l₁ ++ l₂.takeWhile p := by
  induction l₁ with
  | nil => simp
  | cons a l ih =>
    have ha : p a = true := h a (by simp)
    simp only [List.cons_append, List.takeWhile_cons, ha, if_true]
    rw [ih (fun b hb => h b (by simp [hb]))]

theorem dropWhile_append_all {α : Type} (p : α → Bool) (l₁ l₂ : List α)
    (h : ∀ a ∈ l₁, p a = true) :
    (l₁ ++ l₂).dropWhile p = l₂.dropWhile p := by
  induction l₁ with
  | nil => simp
  | cons a l ih =>
    have ha : p a = true := h a (by simp)
    simp only [List.cons_append, List.dropWhile_cons, ha, if_true]
    exact ih (fun b hb => h b (by simp [hb]))

theorem drop_len_append {α : Type} (l₁ l₂ : List α) :
    (l₁ ++ l₂).drop l₁.length = l₂ := by
  induction l₁ with
  | nil => simp
  | cons a l ih => simp [ih]

theorem take_len_append {α : Type} (l₁ l₂ : List α) :
    (l₁ ++ l₂).take l₁.length = l₁ := by
  induction l₁ with
  | nil => simp
  | cons a l ih => simp [ih]

theorem drop_scheme (X : List Char) : ("cog://".data ++ X).drop 6 = X := by
  have h6 : (6 : Nat) = ("cog://".data).length := by decide
  rw [h6, drop_len_append]

theorem drop_scheme_host (h X : List Char) :
    ("cog://".data ++ (h ++ X)).drop (6 + h.length) = X := by
  have h1 : "cog://".data ++ (h ++ X) = ("cog://".data ++ h) ++ X :=
    (List.append_assoc _ _ _).symm
  have h2 : 6 + h.length = ("cog://".data ++ h).length := by
    simp [List.length_append]
    omega
  rw [h1, h2, drop_len_append]

/-- The host extracted from `cog://` followed by a host (free of `:` and
`/`) followed by a `:` or `/` separator is exactly that host. -/
theorem parseHost_append (h : List Char) (c : Char) (X : List Char)
    (hhc : ':' ∉ h) (hhs : '/' ∉ h) (hc : c = ':' ∨ c = '/') :
    parseHost ("cog://".data ++ (h ++ (c :: X))) = h := by
  unfold parseHost
  rw [drop_scheme, takeWhile_append_all _ h (c :: X) ?hall,
    List.takeWhile_cons]
  · rcases hc with hc | hc <;> simp [hc]
  case hall =>
    intro a ha
    simp only [decide_eq_true_eq]
    exact ⟨fun e => hhc (e ▸ ha), fun e => hhs (e ▸ ha)⟩

theorem mem_cstr {a : Nat} {l : List Nat} (h : a ∈ cstr l) : a ∈ l := by
  unfold cstr at h
  exact (List.takeWhile_prefix _).sublist.subset h

theorem cstr_eq_self {l : List Nat} (h : 0 ∉ l) : cstr l = l := by
  unfold cstr
  rw [List.takeWhile_eq_self_iff]
  intro b hb
  simp only [decide_eq_true_eq]
  intro hb0
  exact h (hb0 ▸ hb)

/-- A one-element list is determined by its `headD`. -/
theorem eq_singleton_of_length_one {l : List Nat}
    (h1 : l.length = 1) (h2 : l.headD 0 = 0x16) : l = [0x16] := by
  match l, h1 with
  | [a], _ => simpa using h2

/-- `recvLoop` leaves `_sockfd` unchanged except on a zero-byte read,
which sets it to `0`. -/
theorem recvLoop_fd_spec (g : Bool) (fd : Int) (script : List ReadEvent) :
    ∀ (first : Bool) (rb : List Nat),
      fdOf (recvLoop g fd first rb script) =
        if isPeerClosed (recvLoop g fd first rb script) then 0 else fd := by
  induction script with
  | nil => intro first rb; simp [recvLoop, fdOf, isPeerClosed]
  | cons ev rest ih =>
    intro first rb
    cases ev with
    | rerr => simp [recvLoop, fdOf, isPeerClosed]
    | rclosed => simp [recvLoop, fdOf, isPeerClosed]
    | rdata chunk =>
      rw [recvLoop]
      split
      · exact ih first rb
      · split
        · simp [fdOf, isPeerClosed]
        · split
          · simp [fdOf, isPeerClosed]
          · exact ih false (rb ++ cstr chunk)

theorem recvLoop_ok_fd {g : Bool} {fd : Int} {script : List ReadEvent}
    {first : Bool} {rb msg : List Nat} {fd' : Int} {rest : List ReadEvent}
    (h : recvLoop g fd first rb script = .ok msg fd' rest) : fd' = fd := by
  have := recvLoop_fd_spec g fd script first rb
  rw [h] at this
  simpa [fdOf, isPeerClosed] using this

theorem recvLoop_transportError_fd {g : Bool} {fd : Int}
    {script : List ReadEvent} {first : Bool} {rb : List Nat} {fd' : Int}
    {rest : List ReadEvent}
    (h : recvLoop g fd first rb script = .transportError fd' rest) :
    fd' = fd := by
  have := recvLoop_fd_spec g fd script first rb
  rw [h] at this
  simpa [fdOf, isPeerClosed] using this

theorem recvLoop_peerClosed_fd {g : Bool} {fd : Int}
    {script : List ReadEvent} {first : Bool} {rb : List Nat} {fd' : Int}
    {rest : List ReadEvent}
    (h : recvLoop g fd first rb script = .peerClosed fd' rest) :
    fd' = 0 := by
  have := recvLoop_fd_spec g fd script first rb
  rw [h] at this
  simpa [fdOf, isPeerClosed] using this

/-- If every chunk of the script that contains the idle byte 0x16 is the
solitary idle chunk `[0x16]`, then no returned message contains 0x16. -/
theorem recvLoop_no_idle (g : Bool) (fd : Int) :
    ∀ (script : List ReadEvent) (first : Bool) (rb msg : List Nat)
      (fd' : Int) (rest : List ReadEvent),
      (∀ c, ReadEvent.rdata c ∈ script → 0x16 ∈ c → c = [0x16]) →
      0x16 ∉ rb →
      recvLoop g fd first rb script = .ok msg fd' rest →
      0x16 ∉ msg := by
  intro script
  induction script with
  | nil =>
    intro first rb msg fd' rest _ _ h
    exact absurd h (by simp [recvLoop])
  | cons ev tail ih =>
    intro first rb msg fd' rest hs hrb h
    cases ev with
    | rerr => exact absurd h (by simp [recvLoop])
    | rclosed => exact absurd h (by simp [recvLoop])
    | rdata chunk =>
      have htail : ∀ c, ReadEvent.rdata c ∈ tail → 0x16 ∈ c → c = [0x16] :=
        fun c hc => hs c (by simp [hc])
      rw [recvLoop] at h
      split at h
      · exact ih first rb msg fd' rest htail hrb h
      · rename_i hno
        have hni : 0x16 ∉ chunk := by
          intro hm
          have := hs chunk (by simp) hm
          exact hno (by rw [this]; exact ⟨rfl, rfl⟩)
        have hnic : 0x16 ∉ cstr chunk := fun hm => hni (mem_cstr hm)
        split at h
        · obtain ⟨h1, _, _⟩ := RecvOutcome.ok.injEq .. ▸ h
          exact h1 ▸ hnic
        · split at h
          · obtain ⟨h1, _, _⟩ := RecvOutcome.ok.injEq .. ▸ h
            rw [← h1]
            simp only [List.mem_append, not_or]
            exact ⟨hrb, hnic⟩
          · exact ih false (rb ++ cstr chunk) msg fd' rest htail
              (by simp only [List.mem_append, not_or]; exact ⟨hrb, hnic⟩) h

/-- A successful `do_recv` requires a connected descriptor and leaves it
unchanged. -/
theorem do_recv_ok_fd {g : Bool} {fd : Int} {script : List ReadEvent}
    {msg : List Nat} {fd' : Int} {rest : List ReadEvent}
    (h : do_recv g fd script = .ok msg fd' rest) :
    fd' = fd ∧ connected fd = true := by
  unfold do_recv at h
  by_cases hc : connected fd = true
  · rw [if_pos hc] at h
    exact ⟨recvLoop_ok_fd h, hc⟩
  · rw [if_neg (by simpa using hc)] at h
    exact absurd h (by simp)

/-- A normal return of `open()` leaves the session connected. -/
theorem openModel_ok_connected {fd : Int} {env : OpenEnv} {fd' : Int}
    {acts : List IOAction}
    (h : openModel fd env = (fd', acts, .ok)) : connected fd' = true := by
  unfold openModel at h
  by_cases hc : connected fd = true
  · rw [if_pos hc] at h
    obtain ⟨h1, _, _⟩ := Prod.mk.injEq .. ▸ h
    exact h1 ▸ hc
  · rw [if_neg hc] at h
    split at h
    · exact absurd (congrArg (fun t => t.2.2) h) (by simp)
    · split at h
      · exact absurd (congrArg (fun t => t.2.2) h) (by simp)
      · split at h
        · exact absurd (congrArg (fun t => t.2.2) h) (by simp)
        · split at h
          · exact absurd (congrArg (fun t => t.2.2) h) (by simp)
          · revert h
            split
            all_goals intro h
            case _ msg fd2 rest heq =>
              have h1 : fd' = fd2 := by
                have := congrArg (fun t => t.1) h
                simpa using this.symm
              obtain ⟨hfd, hcon⟩ := do_recv_ok_fd heq
              rw [h1, hfd]
              exact hcon
            all_goals
              exact absurd (congrArg (fun t => t.2.2) h) (by simp)

/-- A normal return of `open()` starting from a disconnected session has
performed exactly the handshake actions. -/
theorem openModel_ok_acts {fd : Int} {env : OpenEnv} {fd' : Int}
    {acts : List IOAction} (hnc : connected fd = false)
    (h : openModel fd env = (fd', acts, .ok)) :
    acts = [IOAction.sendBytes sexprCmd, IOAction.recvCall openRecvGarbage]
    := by
  unfold openModel at h
  rw [if_neg (by simp [hnc])] at h
  split at h
  · exact absurd (congrArg (fun t => t.2.2) h) (by simp)
  · split at h
    · exact absurd (congrArg (fun t => t.2.2) h) (by simp)
    · split at h
      · exact absurd (congrArg (fun t => t.2.2) h) (by simp)
      · split at h
        · exact absurd (congrArg (fun t => t.2.2) h) (by simp)
        · revert h
          split
          all_goals intro h
          case _ msg fd2 rest heq =>
            have := congrArg (fun t => t.2.1) h
            simpa using this.symm
          all_goals
            exact absurd (congrArg (fun t => t.2.2) h) (by simp)

/-! ## Sanity checks on concrete runs -/

example :
    do_recv false 3 [.rdata [0x16], .rdata (strBytes "pong\x0a")] =
      .ok (strBytes "pong\x0a") 3 [] := by decide

example : do_recv true 3 [.rdata (strBytes "cog> ")] =
    .ok (strBytes "cog> ") 3 [] := by decide

example : do_recv false 3 [.rclosed, .rerr] = .peerClosed 0 [.rerr] := by
  decide

example : do_recv false 0 [.rdata [65]] = .notConnected 0 := by decide

/-! ## Claims -/

/-- C1: a read yielding a chunk of exactly one byte 0x16 is discarded and
the read loop continues without appending it (first conjunct, for every
loop state); `receive()` given a single-byte 0x16 chunk followed by a
normal (NUL-free) newline-terminated chunk returns only the content of
the normal chunk (second conjunct); and 0x16 idle bytes never appear in
any returned message, for scripts in which 0x16 only ever arrives as the
solitary idle chunk (third conjunct). -/
theorem recv_discards_solitary_idle :
    (∀ (g first : Bool) (fd : Int) (rb : List Nat) (rest : List ReadEvent),
      recvLoop g fd first rb (ReadEvent.rdata [0x16] :: rest) =
        recvLoop g fd first rb rest) ∧
    (∀ (g : Bool) (fd : Int) (chunk : List Nat) (rest : List ReadEvent),
      connected fd = true → chunk.length < 4096 →
      chunk.getLastD 0 = 10 → 0 ∉ chunk →
      do_recv g fd (ReadEvent.rdata [0x16] :: ReadEvent.rdata chunk :: rest)
        = .ok chunk fd rest) ∧
    (∀ (g first : Bool) (fd fd' : Int) (rb msg : List Nat)
       (script rest : List ReadEvent),
      (∀ c, ReadEvent.rdata c ∈ script → 0x16 ∈ c → c = [0x16]) →
      0x16 ∉ rb →
      recvLoop g fd first rb script = .ok msg fd' rest →
      0x16 ∉ msg) := by
  refine ⟨?_, ?_, ?_⟩
  · intro g first fd rb rest
    rw [recvLoop]
    norm_num
  · intro g fd chunk rest hc hlen hnl hnul
    have hidle : chunk ≠ [0x16] := by
      intro h
      rw [h] at hnl
      norm_num at hnl
    unfold do_recv
    rw [if_pos hc, recvLoop, if_pos (by norm_num), recvLoop,
      if_neg (fun hand => hidle
        (eq_singleton_of_length_one hand.1 hand.2)),
      if_pos ⟨rfl, hlen, Or.inl hnl⟩, cstr_eq_self hnul]
  · intro g first fd fd' rb msg script rest hs hrb h
    exact recvLoop_no_idle g fd script first rb msg fd' rest hs hrb h

/-- Witness for C1: a solitary idle byte followed by `"pong\n"` yields
exactly `"pong\n"`. -/
theorem recv_discards_solitary_idle_witness :
    do_recv false 3
      [ReadEvent.rdata [0x16], ReadEvent.rdata (strBytes "pong\x0a")] =
      .ok (strBytes "pong\x0a") 3 [] :=
  recv_discards_solitary_idle.2.1 false 3 (strBytes "pong\x0a") []
    (by decide) (by decide) (by decide) (by decide)

/-- C2: a zero-byte read sets `_sockfd` to 0 and raises the peer-closed
exception, in every loop state (first conjunct) and from `do_recv` on a
connected session (second conjunct); after any peer-closed failure of
`do_recv`, `connected()` returns false (third conjunct). -/
theorem recv_zero_read_peer_closed :
    (∀ (g first : Bool) (fd : Int) (rb : List Nat) (rest : List ReadEvent),
      recvLoop g fd first rb (ReadEvent.rclosed :: rest) =
        .peerClosed 0 rest) ∧
    (∀ (g : Bool) (fd : Int) (rest : List ReadEvent),
      connected fd = true →
      do_recv g fd (ReadEvent.rclosed :: rest) = .peerClosed 0 rest) ∧
    (∀ (g : Bool) (fd fd' : Int) (script rest : List ReadEvent),
      do_recv g fd script = .peerClosed fd' rest →
      connected fd' = false) := by
  refine ⟨?_, ?_, ?_⟩
  · intro g first fd rb rest
    rw [recvLoop]
  · intro g fd rest hc
    unfold do_recv
    rw [if_pos hc, recvLoop]
  · intro g fd fd' script rest h
    unfold do_recv at h
    by_cases hc : connected fd = true
    · rw [if_pos hc] at h
      rw [recvLoop_peerClosed_fd h]
      decide
    · rw [if_neg (by simpa using hc)] at h
      exact absurd h (by simp)

/-- Witness for C2: a zero-byte read on descriptor 3. -/
theorem recv_zero_read_peer_closed_witness :
    do_recv false 3 [ReadEvent.rclosed] = .peerClosed 0 [] :=
  recv_zero_read_peer_closed.2.1 false 3 [] (by decide)

/-- C3 counterexample: with `expectGreeting = true`, a first read that is
shorter than 4096 bytes and not newline-terminated is NOT always returned
as-is.  A solitary idle chunk `[0x16]` is discarded and further reads are
performed, and a chunk containing a NUL byte is truncated at the NUL. -/
theorem recv_greeting_first_chunk_cex :
    do_recv true 3 [ReadEvent.rdata [0x16], ReadEvent.rdata [65]] =
      .ok [65] 3 [] ∧
    ([65] : List Nat) ≠ [0x16] ∧
    do_recv true 3 [ReadEvent.rdata [97, 0, 98]] = .ok [97] 3 [] ∧
    ([97] : List Nat) ≠ [97, 0, 98] := by decide

/-- C3 amended: on a connected session, `do_recv` with the greeting flag
set returns the first chunk's exact content immediately, consuming no
further reads, provided the chunk is nonempty, shorter than 4096 bytes,
not newline-terminated, not the solitary idle byte `[0x16]`, and contains
no NUL byte. -/
theorem recv_greeting_first_chunk (fd : Int) (chunk : List Nat)
    (rest : List ReadEvent) (hc : connected fd = true)
    (_hne : chunk ≠ []) (hlen : chunk.length < 4096)
    (_hnl : chunk.getLastD 0 ≠ 10) (hidle : chunk ≠ [0x16])
    (hnul : 0 ∉ chunk) :
    do_recv true fd (ReadEvent.rdata chunk :: rest) = .ok chunk fd rest := by
  unfold do_recv
  rw [if_pos hc, recvLoop,
    if_neg (fun hand => hidle (eq_singleton_of_length_one hand.1 hand.2)),
    if_pos ⟨rfl, hlen, Or.inr rfl⟩, cstr_eq_self hnul]

/-- Witness for the amended C3: the greeting `"cog> "` is returned whole
from a single short read. -/
theorem recv_greeting_first_chunk_witness :
    do_recv true 3 [ReadEvent.rdata (strBytes "cog> ")] =
      .ok (strBytes "cog> ") 3 [] :=
  recv_greeting_first_chunk 3 (strBytes "cog> ") [] (by decide) (by decide)
    (by decide) (by decide) (by decide) (by decide)

/-- C4: every successful `open()` that establishes a new connection (the
session was not connected on entry) performs as its handshake exactly one
send of the byte sequence `"sexpr\n"` followed by exactly one receive with
the unterminated-greeting flag set; `openModel` discards the received
message. -/
theorem open_handshake_is_sexpr (fd : Int) (env : OpenEnv) (fd' : Int)
    (acts : List IOAction) (hnc : connected fd = false)
    (hok : openModel fd env = (fd', acts, .ok)) :
    acts = [IOAction.sendBytes (strBytes "sexpr\x0a"),
            IOAction.recvCall true] := by
  rw [openModel_ok_acts hnc hok]
  rfl

/-- Witness for C4: a concrete successful open from a fresh session. -/
theorem open_handshake_is_sexpr_witness :
    [IOAction.sendBytes sexprCmd, IOAction.recvCall openRecvGarbage] =
      [IOAction.sendBytes (strBytes "sexpr\x0a"), IOAction.recvCall true] :=
  open_handshake_is_sexpr (-1)
    ⟨true, 5, true, 6, [ReadEvent.rdata (strBytes "cog> ")]⟩ 5
    [IOAction.sendBytes sexprCmd, IOAction.recvCall openRecvGarbage]
    (by decide) (by decide)

/-- C5: `open()` is idempotent.  If the session is already connected,
`open()` returns immediately, with no I/O actions and no state change
(first conjunct); and after a successful `open()` from a disconnected
session, a second `open()` performs no further actions, so the handshake
ran exactly once across the two calls (second conjunct). -/
theorem open_idempotent :
    (∀ (fd : Int) (env : OpenEnv), connected fd = true →
      openModel fd env = (fd, [], .ok)) ∧
    (∀ (fd fd' : Int) (env env' : OpenEnv) (acts : List IOAction),
      connected fd = false →
      openModel fd env = (fd', acts, .ok) →
      openModel fd' env' = (fd', [], .ok) ∧
      acts = [IOAction.sendBytes sexprCmd, IOAction.recvCall openRecvGarbage])
    := by
  have hconn : ∀ (fd : Int) (env : OpenEnv), connected fd = true →
      openModel fd env = (fd, [], .ok) := by
    intro fd env hc
    unfold openModel
    rw [if_pos hc]
  refine ⟨hconn, ?_⟩
  intro fd fd' env env' acts hnc hok
  exact ⟨hconn fd' env' (openModel_ok_connected hok),
    openModel_ok_acts hnc hok⟩

/-- Witness for C5: an already-connected session is untouched, and a
second `open()` after a successful one performs no actions even in an
environment where every system call would fail. -/
theorem open_idempotent_witness :
    openModel 7 ⟨true, 5, true, 6, []⟩ = (7, [], .ok) ∧
    openModel 5 ⟨false, -1, false, -1, []⟩ = (5, [], .ok) :=
  ⟨open_idempotent.1 7 ⟨true, 5, true, 6, []⟩ (by decide),
   (open_idempotent.2 (-1) 5 ⟨true, 5, true, 6,
      [ReadEvent.rdata (strBytes "cog> ")]⟩ ⟨false, -1, false, -1, []⟩
      [IOAction.sendBytes sexprCmd, IOAction.recvCall openRecvGarbage]
      (by decide) (by decide)).1⟩

/-- C6: `connected()` returns true iff `_sockfd` is a positive descriptor
(first conjunct); the never-connected sentinel `-1` and the peer-closed
sentinel `0` both read as not connected (second and third conjuncts); and
whatever descriptor the receive path stores on a peer-closed read is the
sentinel `0`, which reads as not connected (fourth conjunct). -/
theorem connected_iff_positive_fd :
    (∀ fd : Int, connected fd = true ↔ 0 < fd) ∧
    connected (-1) = false ∧
    connected 0 = false ∧
    (∀ (g : Bool) (fd fd' : Int) (script rest : List ReadEvent),
      do_recv g fd script = .peerClosed fd' rest →
      fd' = 0 ∧ connected fd' = false) := by
  refine ⟨?_, by decide, by decide, ?_⟩
  · intro fd
    simp [connected]
  · intro g fd fd' script rest h
    unfold do_recv at h
    by_cases hc : connected fd = true
    · rw [if_pos hc] at h
      have h0 := recvLoop_peerClosed_fd h
      exact ⟨h0, by rw [h0]; decide⟩
    · rw [if_neg (by simpa using hc)] at h
      exact absurd h (by simp)

/-- Witness for C6: descriptor 3 is connected, and the descriptor stored
by a peer-closed receive reads as not connected. -/
theorem connected_iff_positive_fd_witness :
    connected 3 = true ∧ ((0 : Int) = 0 ∧ connected 0 = false) :=
  ⟨(connected_iff_positive_fd.1 3).mpr (by decide),
   connected_iff_positive_fd.2.2.2 false 3 0 [ReadEvent.rclosed] []
     (by decide)⟩

/-- C7: after `close()` the session is not connected and every subsequent
send or receive fails with the not-connected exception (first three
conjuncts); `close()` on a disconnected session releases nothing and only
resets the sentinel (fourth conjunct); and a second `close()` after any
`close()` is the same safe no-op (fifth conjunct). -/
theorem close_then_not_connected :
    (∀ fd : Int, connected (closeFd fd).2 = false) ∧
    (∀ (fd rc : Int) (str : List Nat),
      do_send str (closeFd fd).2 rc = .notConnected (-1)) ∧
    (∀ (g : Bool) (fd : Int) (script : List ReadEvent),
      do_recv g (closeFd fd).2 script = .notConnected (-1)) ∧
    (∀ fd : Int, connected fd = false → closeFd fd = (none, -1)) ∧
    (∀ fd : Int, closeFd (closeFd fd).2 = (none, -1)) := by
  refine ⟨?_, ?_, ?_, ?_, ?_⟩
  · intro fd; rfl
  · intro fd rc str; rfl
  · intro g fd script; rfl
  · intro fd hc
    unfold closeFd
    rw [if_neg (by simp [hc])]
  · intro fd; rfl

/-- Witness for C7: closing the peer-closed sentinel state releases no
descriptor. -/
theorem close_then_not_connected_witness : closeFd 0 = (none, -1) :=
  close_then_not_connected.2.2.2.1 0 (by decide)

/-- C10: a failing send leaves the descriptor unchanged, so the session
still reads as connected (first conjunct); a receive failing with the
transport-error exception leaves the descriptor unchanged, so a connected
session still reads as connected (second conjunct); and every receive
outcome other than peer-closed leaves the descriptor unchanged — only the
zero-byte read modifies the session state (third conjunct). -/
theorem transport_error_frame :
    (∀ (str : List Nat) (fd rc : Int),
      connected fd = true → rc < 0 →
      do_send str fd rc = .transportError fd ∧ connected fd = true) ∧
    (∀ (g : Bool) (fd fd' : Int) (script rest : List ReadEvent),
      do_recv g fd script = .transportError fd' rest →
      fd' = fd ∧ (connected fd = true → connected fd' = true)) ∧
    (∀ (g : Bool) (fd : Int) (script : List ReadEvent),
      isPeerClosed (do_recv g fd script) = false →
      fdOf (do_recv g fd script) = fd) := by
  refine ⟨?_, ?_, ?_⟩
  · intro str fd rc hc hrc
    unfold do_send
    rw [if_pos hc, if_pos hrc]
    exact ⟨rfl, hc⟩
  · intro g fd fd' script rest h
    unfold do_recv at h
    by_cases hc : connected fd = true
    · rw [if_pos hc] at h
      have := recvLoop_transportError_fd h
      exact ⟨this, fun _ => this ▸ hc⟩
    · rw [if_neg (by simpa using hc)] at h
      exact absurd h (by simp)
  · intro g fd script h
    unfold do_recv at h ⊢
    by_cases hc : connected fd = true
    · rw [if_pos hc] at h ⊢
      rw [recvLoop_fd_spec g fd script true [], h, if_neg (by simp)]
    · rw [if_neg (by simpa using hc)] at h ⊢
      rfl

/-- Witness for C10: a failed send on descriptor 3 leaves it connected. -/
theorem transport_error_frame_witness :
    do_send [97] 3 (-1) = .transportError 3 ∧ connected 3 = true :=
  transport_error_frame.1 [97] 3 (-1) (by decide) (by decide)

/-- C8: for every identifier `cog://h:p/n` with host `h` free of `:` and
`/` and port `p` free of `/`, the identifier passes the scheme check and
the resolver yields host `h` (all characters after the scheme up to the
first `:` or `/`), port `p`, and namespace `n`. -/
theorem uri_parse_host_port_namespace (h p n : List Char)
    (hhc : ':' ∉ h) (hhs : '/' ∉ h) (hps : '/' ∉ p) :
    initOk ("cog://".data ++ (h ++ (':' :: (p ++ ('/' :: n))))) = true ∧
    parseHost ("cog://".data ++ (h ++ (':' :: (p ++ ('/' :: n))))) = h ∧
    parsePort ("cog://".data ++ (h ++ (':' :: (p ++ ('/' :: n))))) = p ∧
    parseNamespace ("cog://".data ++ (h ++ (':' :: (p ++ ('/' :: n))))) = n
    := by
  have hhost := parseHost_append h ':' (p ++ ('/' :: n)) hhc hhs (Or.inl rfl)
  refine ⟨?_, hhost, ?_, ?_⟩
  · have h6 : (6 : Nat) = ("cog://".data).length := by decide
    simp only [initOk, decide_eq_true_eq]
    rw [h6, take_len_append]
  · show parsePort _ = p
    unfold parsePort
    simp only [hhost]
    rw [drop_scheme_host, if_pos (by simp), List.dropWhile_cons,
      if_neg (by simp)]
    simp only [List.drop_succ_cons, List.drop_zero]
    rw [takeWhile_append_all _ p ('/' :: n) ?pall, List.takeWhile_cons,
      if_neg (by simp)]
    · simp
    case pall =>
      intro a ha
      simp only [decide_eq_true_eq]
      exact fun e => hps (e ▸ ha)
  · show parseNamespace _ = n
    unfold parseNamespace
    rw [drop_scheme]
    have hre : h ++ (':' :: (p ++ ('/' :: n))) =
        (h ++ (':' :: p)) ++ ('/' :: n) := by
      simp
    rw [hre, dropWhile_append_all _ _ ('/' :: n) ?nall,
      List.dropWhile_cons, if_neg (by simp)]
    · simp
    case nall =>
      intro a ha
      simp only [decide_eq_true_eq]
      intro hae
      subst hae
      rcases List.mem_append.mp ha with h1 | h1
      · exact hhs h1
      · rcases List.mem_cons.mp h1 with h2 | h2
        · exact absurd h2 (by decide)
        · exact hps h2

/-- Witness for C8: `cog://localhost:17005/space`. -/
theorem uri_parse_host_port_namespace_witness :
    initOk ("cog://".data ++ ("localhost".data ++ (':' ::
        ("17005".data ++ ('/' :: "space".data))))) = true ∧
    parseHost ("cog://".data ++ ("localhost".data ++ (':' ::
        ("17005".data ++ ('/' :: "space".data))))) = "localhost".data ∧
    parsePort ("cog://".data ++ ("localhost".data ++ (':' ::
        ("17005".data ++ ('/' :: "space".data))))) = "17005".data ∧
    parseNamespace ("cog://".data ++ ("localhost".data ++ (':' ::
        ("17005".data ++ ('/' :: "space".data))))) = "space".data :=
  uri_parse_host_port_namespace "localhost".data "17005".data "space".data
    (by decide) (by decide) (by decide)

/-- C9 counterexample: the identifier `cog://h/a:b` has the form
`scheme://h/n` (host `h`, namespace `a:b`, no port component), yet the
resolver yields port `"b"` rather than the default `"17001"`: the code's
`find(':', 6 + host.length())` scan starts at the `/` ending the host and
finds the `:` inside the namespace. -/
theorem default_port_cex :
    parseHost "cog://h/a:b".data = "h".data ∧
    parseNamespace "cog://h/a:b".data = "a:b".data ∧
    parsePort "cog://h/a:b".data = "b".data ∧
    "b".data ≠ "17001".data := by decide

/-- C9 amended: for every identifier `cog://h/n` omitting the port, with
host `h` free of `:` and `/` and namespace `n` free of `:`, the resolver
yields the default port `"17001"`. -/
theorem default_port_when_no_colon (h n : List Char)
    (hhc : ':' ∉ h) (hhs : '/' ∉ h) (hnc : ':' ∉ n) :
    parsePort ("cog://".data ++ (h ++ ('/' :: n))) = "17001".data := by
  have hhost := parseHost_append h '/' n hhc hhs (Or.inr rfl)
  unfold parsePort
  simp only [hhost]
  rw [drop_scheme_host, if_neg ?noc]
  case noc =>
    intro hany
    rw [List.any_eq_true] at hany
    obtain ⟨x, hx, hx2⟩ := hany
    have hxc : x = ':' := by simpa using hx2
    subst hxc
    rcases List.mem_cons.mp hx with h1 | h1
    · exact absurd h1 (by decide)
    · exact hnc h1

/-- Witness for the amended C9: `cog://localhost/space` resolves to the
default port. -/
theorem default_port_when_no_colon_witness :
    parsePort ("cog://".data ++ ("localhost".data ++ ('/' :: "space".data)))
      = "17001".data :=
  default_port_when_no_colon "localhost".data "space".data (by decide)
    (by decide) (by decide)
